import Mathlib

/-!
Shallow embedding of the signal-extraction / performance-evaluation core of
the pumpmybagsbot repository (src/src/services/signal_processor.py,
src/src/services/price_service.py, src/src/config.py).

Prices are modelled as exact rationals (the Python code uses floats; the
claims under study are about the formulas, not about rounding).  Python
values that may be absent are `Option`; Python exceptions are modelled with
`Except PyErr`.  Each definition carries a reference to the source lines it
embeds.
-/

namespace PumpBot

/-- Status constants, src/src/config.py lines 23-26. -/
def PENDING : String := "PENDING"

/-- src/src/config.py line 24. -/
def HIT_TARGET : String := "HIT TARGET"

/-- src/src/config.py line 25. -/
def HIT_STOPLOSS : String := "HIT STOPLOSS"

/-- src/src/config.py line 26. -/
def EXPIRED : String := "EXPIRED"

/-- Timeframe durations in days, src/src/config.py lines 33-37. -/
def TIMEFRAME_DURATIONS : List (String × Nat) :=
  [("SHORT", 1), ("MID", 7), ("LONG", 30)]

/-- Python exceptions that the embedded code can raise. -/
inductive PyErr where
  | attributeError
  | valueError
  | typeError
  deriving Repr, DecidableEq

/-- A Python value stored in a price-bearing field of a signal dict:
absent/None, a string, or a number (int or float, as an exact rational). -/
inductive PriceVal where
  | none
  | str (s : String)
  | num (q : ℚ)
  deriving Repr, DecidableEq

/-- Numeric value of a list of ASCII digit characters (most significant first). -/
def digitsVal (ds : List Char) : Nat :=
  ds.foldl (fun a c => a * 10 + (c.toNat - 48)) 0

/-- Split a maximal prefix of ASCII digits off a character list. -/
def takeDigits : List Char → List Char × List Char
  | [] => ([], [])
  | c :: cs =>
    if c.isDigit then
      let p := takeDigits cs
      (c :: p.1, p.2)
    else ([], c :: cs)

/-- Optional sign at the head of a numeric literal; returns (isNegative, rest). -/
def parseSign : List Char → Bool × List Char
  | '-' :: cs => (true, cs)
  | '+' :: cs => (false, cs)
  | cs => (false, cs)

/-- Model of Python float() on finite decimal literals: optional sign,
digits with an optional fractional part (at least one digit overall), and
an optional e/E exponent.  Anything else (including trailing junk) fails,
which models the ValueError branch of the callers. -/
def parseFloatChars (cs : List Char) : Option ℚ :=
  let s1 := parseSign cs
  let ip := takeDigits s1.2
  let fp : List Char × List Char :=
    match ip.2 with
    | '.' :: rest => takeDigits rest
    | _ => ([], ip.2)
  if ip.1.isEmpty ∧ fp.1.isEmpty then none
  else
    let mant : ℚ := (digitsVal (ip.1 ++ fp.1) : ℚ) / (10 : ℚ) ^ fp.1.length
    let signed : ℚ := if s1.1 then -mant else mant
    match fp.2 with
    | [] => some signed
    | e :: rest =>
      if e = 'e' ∨ e = 'E' then
        let es := parseSign rest
        let ed := takeDigits es.2
        if ed.1.isEmpty ∨ ¬ ed.2.isEmpty then none
        else if es.1 then some (signed / (10 : ℚ) ^ digitsVal ed.1)
        else some (signed * (10 : ℚ) ^ digitsVal ed.1)
      else none

/-- src/src/services/price_service.py lines 5-25, parse_price.
Falsy input (None, empty string, numeric zero) returns None before any
string method is reached; a non-zero int/float reaches
price_str.replace and raises AttributeError; a string is stripped of
commas and spaces, an ending k/K multiplies the numeric prefix by 1000,
and a float() failure is caught and mapped to None. -/
def parse_price : PriceVal → Except PyErr (Option ℚ)
  | .none => .ok Option.none
  | .num q => if q = 0 then .ok Option.none else .error .attributeError
  | .str s =>
    if s = "" then .ok Option.none
    else
      let cs := s.data.filter (fun c => c ≠ ',' ∧ c ≠ ' ')
      match cs.getLast? with
      | Option.some c =>
        if c = 'k' ∨ c = 'K' then .ok ((parseFloatChars cs.dropLast).map (fun q => q * 1000))
        else .ok (parseFloatChars cs)
      | Option.none => .ok (parseFloatChars cs)

instance {e a : Type} [DecidableEq e] [DecidableEq a] : DecidableEq (Except e a) := fun x y =>
  match x, y with
  | .ok u, .ok v =>
    if h : u = v then .isTrue (congrArg Except.ok h)
    else .isFalse (fun hc => h (Except.ok.inj hc))
  | .error u, .error v =>
    if h : u = v then .isTrue (congrArg Except.error h)
    else .isFalse (fun hc => h (Except.error.inj hc))
  | .ok _, .error _ => .isFalse (fun hc => Except.noConfusion hc)
  | .error _, .ok _ => .isFalse (fun hc => Except.noConfusion hc)

/-- Python str.lower on the ASCII strings used here, written charwise so
that it evaluates by reduction. -/
def pyLower (s : String) : String := String.mk (s.data.map Char.toLower)

/-- Pythonic truthiness of an optional number: None and 0 are falsy. -/
def qtruthy : Option ℚ → Bool
  | Option.none => false
  | Option.some q => decide (q ≠ 0)

/-- Digit value of an ASCII digit character. -/
def dval (c : Char) : Nat := c.toNat - 48

/-- strptime %Y: exactly four digits. -/
def scanYear : List Char → Option (Nat × List Char)
  | a :: b :: c :: d :: rest =>
    if a.isDigit ∧ b.isDigit ∧ c.isDigit ∧ d.isDigit then
      Option.some (dval a * 1000 + dval b * 100 + dval c * 10 + dval d, rest)
    else Option.none
  | _ => Option.none

/-- strptime %m, regex 1[0-2]|0[1-9]|[1-9]: months 1-12, one or two digits. -/
def scanMonth : List Char → Option (Nat × List Char)
  | '1' :: c :: rest =>
    if '0' ≤ c ∧ c ≤ '2' then Option.some (10 + dval c, rest)
    else Option.some (1, c :: rest)
  | '0' :: c :: rest =>
    if '1' ≤ c ∧ c ≤ '9' then Option.some (dval c, rest) else Option.none
  | c :: rest =>
    if '1' ≤ c ∧ c ≤ '9' then Option.some (dval c, rest) else Option.none
  | [] => Option.none

/-- strptime %d, regex 3[01]|[12]\d|0[1-9]|[1-9]: days 1-31, one or two digits. -/
def scanDay : List Char → Option (Nat × List Char)
  | '3' :: c :: rest =>
    if c = '0' ∨ c = '1' then Option.some (30 + dval c, rest)
    else Option.some (3, c :: rest)
  | '1' :: c :: rest =>
    if c.isDigit then Option.some (10 + dval c, rest) else Option.some (1, c :: rest)
  | '2' :: c :: rest =>
    if c.isDigit then Option.some (20 + dval c, rest) else Option.some (2, c :: rest)
  | '0' :: c :: rest =>
    if '1' ≤ c ∧ c ≤ '9' then Option.some (dval c, rest) else Option.none
  | c :: rest =>
    if '1' ≤ c ∧ c ≤ '9' then Option.some (dval c, rest) else Option.none
  | [] => Option.none

/-- strptime %H, regex 2[0-3]|[0-1]\d|\d: hours 0-23, one or two digits. -/
def scanHour : List Char → Option (Nat × List Char)
  | '2' :: c :: rest =>
    if '0' ≤ c ∧ c ≤ '3' then Option.some (20 + dval c, rest)
    else Option.some (2, c :: rest)
  | '0' :: c :: rest =>
    if c.isDigit then Option.some (dval c, rest) else Option.some (0, c :: rest)
  | '1' :: c :: rest =>
    if c.isDigit then Option.some (10 + dval c, rest) else Option.some (1, c :: rest)
  | c :: rest =>
    if c.isDigit then Option.some (dval c, rest) else Option.none
  | [] => Option.none

/-- strptime %M (and, up to the identical accept/reject outcome, %S),
regex [0-5]\d|\d: 0-59, one or two digits.  The %S regex additionally
admits 60 and 61, but the datetime constructor then rejects them, so the
overall accept/reject behaviour matches this scanner. -/
def scanMin : List Char → Option (Nat × List Char)
  | c1 :: c2 :: rest =>
    if '0' ≤ c1 ∧ c1 ≤ '5' ∧ c2.isDigit then Option.some (dval c1 * 10 + dval c2, rest)
    else if c1.isDigit then Option.some (dval c1, c2 :: rest)
    else Option.none
  | [c] => if c.isDigit then Option.some (dval c, []) else Option.none
  | [] => Option.none

/-- Expect one literal character. -/
def expectChar (c : Char) : List Char → Option (List Char)
  | x :: rest => if x = c then Option.some rest else Option.none
  | [] => Option.none

/-- Gregorian leap-year rule. -/
def isLeap (y : Nat) : Bool := y % 4 = 0 && (y % 100 ≠ 0 || y % 400 = 0)

/-- Length of a month in a given year. -/
def daysInMonth (y m : Nat) : Nat :=
  if m = 2 then (if isLeap y then 29 else 28)
  else if m = 4 ∨ m = 6 ∨ m = 9 ∨ m = 11 then 30
  else 31

/-- Days in the months strictly before month m of year y. -/
def daysBeforeMonth (y m : Nat) : Nat :=
  (List.range 13).foldl (fun a k => if 1 ≤ k ∧ k < m then a + daysInMonth y k else a) 0

/-- Rata die: day count of y-m-d in the proleptic Gregorian calendar,
with 0001-01-01 as day 1. -/
def rataDie (y m d : Nat) : Nat :=
  365 * (y - 1) + ((y - 1) / 4 - (y - 1) / 100 + (y - 1) / 400) + daysBeforeMonth y m + d

/-- Seconds since 1970-01-01 00:00:00 of a civil date-time on the naive
clock used throughout the Python code. -/
def civilSeconds (y m d h mi s : Nat) : ℤ :=
  ((rataDie y m d : ℤ) - (rataDie 1970 1 1 : ℤ)) * 86400 + h * 3600 + mi * 60 + s

/-- Model of datetime.strptime(ts, "%Y-%m-%d %H:%M:%S"): scan each field
with the _strptime regex behaviour, require the whole string consumed,
and apply the datetime constructor range checks (year at least 1, day
valid for the month).  Returns the instant in seconds, or None on the
ValueError path. -/
def strptimeChars (cs : List Char) : Option ℤ := do
  let (y, r1) ← scanYear cs
  let r2 ← expectChar '-' r1
  let (mo, r3) ← scanMonth r2
  let r4 ← expectChar '-' r3
  let (d, r5) ← scanDay r4
  let r6 ← expectChar ' ' r5
  let (h, r7) ← scanHour r6
  let r8 ← expectChar ':' r7
  let (mi, r9) ← scanMin r8
  let r10 ← expectChar ':' r9
  let (s, r11) ← scanMin r10
  if r11 = [] ∧ 1 ≤ y ∧ d ≤ daysInMonth y mo then
    Option.some (civilSeconds y mo d h mi s)
  else Option.none

/-- datetime.strptime(signal.get("timestamp"), "%Y-%m-%d %H:%M:%S") at
src/src/services/signal_processor.py line 120: a missing timestamp raises
TypeError, an unparseable one raises ValueError. -/
def strptimeTs : Option String → Except PyErr ℤ
  | Option.none => .error .typeError
  | Option.some s =>
    match strptimeChars s.data with
    | Option.some t => .ok t
    | Option.none => .error .valueError

/-- A signal record (a Python dict).  Option.none on an Option field, the
.none constructor of PriceVal, and the empty target list model an absent
key.  exit_date models the strftime-formatted now() stamp by the instant
itself (the format of line 76 etc. is injective on whole seconds). -/
structure Signal where
  status : Option String := Option.none
  coin : Option String := Option.none
  limit_order : PriceVal := .none
  take_profit : PriceVal := .none
  stop_loss : PriceVal := .none
  position : Option String := Option.none
  take_profit_targets : List (Nat × PriceVal) := []
  timeframe : Option String := Option.none
  timestamp : Option String := Option.none
  hit_tp : Option Nat := Option.none
  performance : Option ℚ := Option.none
  exit_price : Option ℚ := Option.none
  exit_date : Option ℤ := Option.none
  unrealized_performance : Option ℚ := Option.none
  deriving Repr, DecidableEq

/-- Comparison key of sorted(tp_targets.items(), key=lambda x: x[1]),
src/src/services/signal_processor.py line 63. -/
def tpLe (a b : Nat × ℚ) : Prop := a.2 ≤ b.2

/-- Comparison key of the reverse=True sort at line 93. -/
def tpGe (a b : Nat × ℚ) : Prop := b.2 ≤ a.2

instance : DecidableRel tpLe := fun a b => inferInstanceAs (Decidable (a.2 ≤ b.2))

instance : DecidableRel tpGe := fun a b => inferInstanceAs (Decidable (b.2 ≤ a.2))

instance : IsTotal (Nat × ℚ) tpLe := ⟨fun a b => le_total a.2 b.2⟩

instance : IsTrans (Nat × ℚ) tpLe := ⟨fun _ _ _ h1 h2 => le_trans h1 h2⟩

instance : IsTotal (Nat × ℚ) tpGe := ⟨fun a b => le_total b.2 a.2⟩

instance : IsTrans (Nat × ℚ) tpGe := ⟨fun _ _ _ h1 h2 => le_trans h2 h1⟩

/-- Lines 39-43: build tp_targets by parsing every stored tier value;
parse_price itself can raise (for non-zero numeric stored values). -/
def buildTpTargets (l : List (Nat × PriceVal)) : Except PyErr (List (Nat × Option ℚ)) :=
  l.mapM (fun p => (parse_price p.2).map (fun v => (p.1, v)))

/-- Tiers whose value parsed to a number. -/
def dropNone (l : List (Nat × Option ℚ)) : List (Nat × ℚ) :=
  l.filterMap (fun p => p.2.map (fun v => (p.1, v)))

/-- Lines 60-68 (long): sort tiers ascending by parsed price (Python sorted
is stable; insertionSort with a total preorder is the same stable sort) and
take the first tier with price <= current_price.  A tier whose value
parsed to None makes the sort or the >= comparison raise TypeError. -/
def scanTpLong (cur : ℚ) (tps : List (Nat × Option ℚ)) :
    Except PyErr (Option (Nat × ℚ)) :=
  if tps.any (fun p => p.2.isNone) then .error .typeError
  else .ok ((List.insertionSort tpLe (dropNone tps)).find? (fun p => decide (cur ≥ p.2)))

/-- Lines 90-98 (short): sort tiers descending by parsed price and take the
first tier with price >= current_price; None values raise TypeError. -/
def scanTpShort (cur : ℚ) (tps : List (Nat × Option ℚ)) :
    Except PyErr (Option (Nat × ℚ)) :=
  if tps.any (fun p => p.2.isNone) then .error .typeError
  else .ok ((List.insertionSort tpGe (dropNone tps)).find? (fun p => decide (cur ≤ p.2)))

/-- Lines 45-117: the price-driven transitions.  Only runs when the parsed
entry price is truthy; computes the effective stop (explicit if truthy,
else 20 percent adverse of entry), then checks tiered take-profits, the
scalar take-profit, and the stop, in that order, with direction given by
position.lower() == "long". -/
def priceBlock (now : ℤ) (cur : ℚ) (entry? target? sl? : Option ℚ)
    (position : String) (tps : List (Nat × Option ℚ)) (sig : Signal) :
    Except PyErr Signal :=
  if qtruthy entry? then
    let entry := entry?.getD 0
    let stop_loss_pct : ℚ := 2 / 10
    let stop_loss : ℚ :=
      if qtruthy sl? then sl?.getD 0
      else if pyLower position = "long" then entry * (1 - stop_loss_pct)
      else entry * (1 + stop_loss_pct)
    if pyLower position = "long" then do
      let hit ← scanTpLong cur tps
      match hit with
      | Option.some nt =>
        pure { sig with
          status := Option.some HIT_TARGET, hit_tp := Option.some nt.1,
          performance := Option.some ((nt.2 - entry) / entry * 100),
          exit_price := Option.some nt.2, exit_date := Option.some now }
      | Option.none =>
        if qtruthy target? ∧ cur ≥ target?.getD 0 then
          pure { sig with
            status := Option.some HIT_TARGET,
            performance := Option.some ((target?.getD 0 - entry) / entry * 100),
            exit_price := target?, exit_date := Option.some now }
        else if cur ≤ stop_loss then
          pure { sig with
            status := Option.some HIT_STOPLOSS,
            performance := Option.some ((stop_loss - entry) / entry * 100),
            exit_price := Option.some stop_loss, exit_date := Option.some now }
        else pure sig
    else do
      let hit ← scanTpShort cur tps
      match hit with
      | Option.some nt =>
        pure { sig with
          status := Option.some HIT_TARGET, hit_tp := Option.some nt.1,
          performance := Option.some ((entry - nt.2) / entry * 100),
          exit_price := Option.some nt.2, exit_date := Option.some now }
      | Option.none =>
        if qtruthy target? ∧ cur ≤ target?.getD 0 then
          pure { sig with
            status := Option.some HIT_TARGET,
            performance := Option.some ((entry - target?.getD 0) / entry * 100),
            exit_price := target?, exit_date := Option.some now }
        else if cur ≥ stop_loss then
          pure { sig with
            status := Option.some HIT_STOPLOSS,
            performance := Option.some ((entry - stop_loss) / entry * 100),
            exit_price := Option.some stop_loss, exit_date := Option.some now }
        else pure sig
  else pure sig

/-- Lines 119-133: unconditional timestamp parse (raises on a bad or
missing timestamp), then the expiry transition when the horizon is past
and status is exactly the string PENDING; the performance / exit fields
are only set when the parsed entry price is truthy. -/
def expiryStep (now : ℤ) (cur : ℚ) (entry? : Option ℚ) (position : String)
    (sig : Signal) : Except PyErr Signal := do
  let signal_date ← strptimeTs sig.timestamp
  let timeframe := sig.timeframe.getD "MID"
  let expiration_days : ℤ := ((TIMEFRAME_DURATIONS.lookup timeframe).getD 7 : ℕ)
  if now > signal_date + expiration_days * 86400 ∧ sig.status = Option.some PENDING then
    let sig2 : Signal := { sig with status := Option.some EXPIRED }
    if qtruthy entry? then
      let entry := entry?.getD 0
      let perf : ℚ :=
        if pyLower position = "long" then (cur - entry) / entry * 100
        else (entry - cur) / entry * 100
      pure { sig2 with
        performance := Option.some perf,
        exit_price := Option.some cur, exit_date := Option.some now }
    else pure sig2
  else pure sig

/-- Lines 135-140: refresh unrealized_performance when status is exactly
PENDING and the entry price is truthy. -/
def unrealizedStep (cur : ℚ) (entry? : Option ℚ) (position : String)
    (sig : Signal) : Signal :=
  if sig.status = Option.some PENDING ∧ qtruthy entry? then
    let entry := entry?.getD 0
    { sig with
      unrealized_performance := Option.some
        (if pyLower position = "long" then (cur - entry) / entry * 100
         else (entry - cur) / entry * 100) }
  else sig

/-- Lines 18-142 of check_signal_performance past the terminal guard:
coin and current-price truthiness guards, the three parse_price calls,
position defaulting, tp-target parsing, then the three evaluation steps. -/
def checkActive (now : ℤ) (priceOf : String → Option ℚ) (sig : Signal) :
    Except PyErr Signal :=
  match sig.coin with
  | Option.none => .ok sig
  | Option.some coin =>
    if coin = "" then .ok sig
    else
      match priceOf coin with
      | Option.none => .ok sig
      | Option.some cur =>
        if cur = 0 then .ok sig
        else do
          let entry? ← parse_price sig.limit_order
          let target? ← parse_price sig.take_profit
          let sl? ← parse_price sig.stop_loss
          let position := sig.position.getD "Long"
          let tps ← buildTpTargets sig.take_profit_targets
          let sig1 ← priceBlock now cur entry? target? sl? position tps sig
          let sig2 ← expiryStep now cur entry? position sig1
          pure (unrealizedStep cur entry? position sig2)

/-- src/src/services/signal_processor.py lines 12-142.  now is the value
of datetime.now() in seconds; priceOf models get_crypto_price. -/
def check_signal_performance (now : ℤ) (priceOf : String → Option ℚ)
    (sig : Signal) : Except PyErr Signal :=
  if sig.status.isSome ∧ sig.status ≠ Option.some PENDING then .ok sig
  else checkActive now priceOf sig

/-- Body of the loop of update_all_signals_performance, lines 147-159. -/
def updateStep (now : ℤ) (priceOf : String → Option ℚ)
    (acc : List Signal × Bool) (sig : Signal) : Except PyErr (List Signal × Bool) := do
  let sig := if sig.status.isNone then { sig with status := Option.some PENDING } else sig
  if sig.status = Option.some PENDING then
    let us ← check_signal_performance now priceOf sig
    pure (acc.1 ++ [us], acc.2 || decide (us.status ≠ Option.some PENDING))
  else pure (acc.1 ++ [sig], acc.2)

/-- src/src/services/signal_processor.py lines 144-164.  Returns the
post-state of the signal store and the updated flag; an exception raised
by check_signal_performance propagates (there is no try/except). -/
def update_all_signals_performance (now : ℤ) (priceOf : String → Option ℚ)
    (signals : List Signal) : Except PyErr (List Signal × Bool) :=
  signals.foldlM (updateStep now priceOf) ([], false)

/-- ASCII alphanumeric, the class [A-Za-z0-9] of the dollar-ticker regex. -/
def isAlnum (c : Char) : Bool := c.isAlpha || c.isDigit

/-- Maximal alphanumeric prefix. -/
def takeAlnum : List Char → List Char × List Char
  | [] => ([], [])
  | c :: cs =>
    if isAlnum c then
      let p := takeAlnum cs
      (c :: p.1, p.2)
    else ([], c :: cs)

/-- re.search of the dollar-ticker regex at line 174 followed by the
.upper() of line 176: leftmost dollar sign followed by at least one
alphanumeric; the capture is the maximal alphanumeric run. -/
def findDollarTicker : List Char → Option String
  | [] => Option.none
  | '$' :: rest =>
    match takeAlnum rest with
    | ([], _) => findDollarTicker rest
    | (run, _) => Option.some (String.mk (run.map Char.toUpper))
  | _ :: rest => findDollarTicker rest

/-- Word character of the regex word-boundary class: [A-Za-z0-9_]. -/
def isWordChar (c : Char) : Bool := c.isAlpha || c.isDigit || c = '_'

/-- Word boundary on the left of a match position. -/
def boundaryBefore : Option Char → Bool
  | Option.none => true
  | Option.some c => !isWordChar c

/-- Word boundary after a match of pat at the head of text. -/
def boundaryAfter (pat text : List Char) : Bool :=
  match text.drop pat.length with
  | [] => true
  | c :: _ => !isWordChar c

/-- Whether the word pat occurs in text starting at or after the current
position, with word boundaries on both sides; prev is the character just
before the current position. -/
def containsWordFrom (pat : List Char) : Option Char → List Char → Bool
  | prev, text =>
    (boundaryBefore prev && pat.isPrefixOf text && boundaryAfter pat text) ||
    match text with
    | [] => false
    | c :: rest => containsWordFrom pat (Option.some c) rest

/-- re.search of the word-boundary pattern of line 188 over a text. -/
def containsWord (text pat : List Char) : Bool :=
  containsWordFrom pat Option.none text

/-- The whitelist of lines 179-180, in source order. -/
def common_coins : List String :=
  ["BTC", "ETH", "XRP", "LTC", "ADA", "DOT", "DOGE", "SOL", "SHIB", "AVAX",
   "MATIC", "LINK", "BNB", "UNI", "XLM", "ATOM", "ALGO", "FIL", "AAVE",
   "EOS", "XTZ", "NEO", "COMP", "ZEC"]

/-- Coin extraction of extract_signal_data, lines 170-192: a dollar ticker
wins; otherwise the text is uppercased and the whitelist is scanned in its
own order, returning the first listed coin that occurs in the text as a
whole word. -/
def extract_coin (text : String) : Option String :=
  match findDollarTicker text.data with
  | Option.some t => Option.some t
  | Option.none =>
    let up := text.data.map Char.toUpper
    common_coins.find? (fun c => containsWord up c.data)

/-- Modelled from the spec (section 4.3 step 3, Short case): the Short
price-transition semantics written out on their own, with no Long branch:
the implicit stop is entry * (1 + 0.2) when no explicit stop is truthy, a
tier take-profit is hit when current_price <= tier price (scanning tiers
sorted descending by price), then the scalar take-profit when
current_price <= it, then the stop when current_price >= it, and realized
performance is (entry - exit) / entry * 100. -/
def shortPriceBlock (now : ℤ) (cur : ℚ) (entry? target? sl? : Option ℚ)
    (tps : List (Nat × Option ℚ)) (sig : Signal) : Except PyErr Signal :=
  if qtruthy entry? then
    let entry := entry?.getD 0
    let stop_loss : ℚ :=
      if qtruthy sl? then sl?.getD 0 else entry * (1 + 2 / 10)
    do
    let hit ← scanTpShort cur tps
    match hit with
    | Option.some nt =>
      pure { sig with
        status := Option.some HIT_TARGET, hit_tp := Option.some nt.1,
        performance := Option.some ((entry - nt.2) / entry * 100),
        exit_price := Option.some nt.2, exit_date := Option.some now }
    | Option.none =>
      if qtruthy target? ∧ cur ≤ target?.getD 0 then
        pure { sig with
          status := Option.some HIT_TARGET,
          performance := Option.some ((entry - target?.getD 0) / entry * 100),
          exit_price := target?, exit_date := Option.some now }
      else if cur ≥ stop_loss then
        pure { sig with
          status := Option.some HIT_STOPLOSS,
          performance := Option.some ((entry - stop_loss) / entry * 100),
          exit_price := Option.some stop_loss, exit_date := Option.some now }
      else pure sig
  else pure sig

/-- Modelled from the spec (section 4.3 step 4, Short case): expiry with
performance (entry - current) / entry * 100. -/
def shortExpiryStep (now : ℤ) (cur : ℚ) (entry? : Option ℚ) (sig : Signal) :
    Except PyErr Signal := do
  let signal_date ← strptimeTs sig.timestamp
  let timeframe := sig.timeframe.getD "MID"
  let expiration_days : ℤ := ((TIMEFRAME_DURATIONS.lookup timeframe).getD 7 : ℕ)
  if now > signal_date + expiration_days * 86400 ∧ sig.status = Option.some PENDING then
    let sig2 : Signal := { sig with status := Option.some EXPIRED }
    if qtruthy entry? then
      pure { sig2 with
        performance := Option.some ((entry?.getD 0 - cur) / entry?.getD 0 * 100),
        exit_price := Option.some cur, exit_date := Option.some now }
    else pure sig2
  else pure sig

/-- Modelled from the spec (section 4.3 step 5, Short case): unrealized
performance (entry - current) / entry * 100 while still PENDING. -/
def shortUnrealizedStep (cur : ℚ) (entry? : Option ℚ) (sig : Signal) : Signal :=
  if sig.status = Option.some PENDING ∧ qtruthy entry? then
    { sig with
      unrealized_performance :=
        Option.some ((entry?.getD 0 - cur) / entry?.getD 0 * 100) }
  else sig

/-- Modelled from the spec (section 4.3, Short case assembled): the whole
evaluation of an active signal under Short semantics throughout, used as
the comparison definition for the claim that every non-long position is
evaluated with Short semantics. -/
def shortSemanticsActive (now : ℤ) (priceOf : String → Option ℚ) (sig : Signal) :
    Except PyErr Signal :=
  match sig.coin with
  | Option.none => .ok sig
  | Option.some coin =>
    if coin = "" then .ok sig
    else
      match priceOf coin with
      | Option.none => .ok sig
      | Option.some cur =>
        if cur = 0 then .ok sig
        else do
          let entry? ← parse_price sig.limit_order
          let target? ← parse_price sig.take_profit
          let sl? ← parse_price sig.stop_loss
          let tps ← buildTpTargets sig.take_profit_targets
          let sig1 ← shortPriceBlock now cur entry? target? sl? tps sig
          let sig2 ← shortExpiryStep now cur entry? sig1
          pure (shortUnrealizedStep cur entry? sig2)

/-- Binding an ok value in the Except monad is application. -/
theorem exbind_ok {α β : Type} (a : α) (f : α → Except PyErr β) :
    (Except.ok a >>= f) = f a := rfl

/-- Binding an error in the Except monad propagates the error. -/
theorem exbind_err {α β : Type} (e : PyErr) (f : α → Except PyErr β) :
    ((Except.error e : Except PyErr α) >>= f) = Except.error e := rfl

/-- A truthy optional number is present. -/
theorem isSome_of_qtruthy {o : Option ℚ} (h : qtruthy o = true) : o.isSome := by
  cases o with
  | none => simp [qtruthy] at h
  | some q => rfl

/-- dropNone undoes wrapping every tier value in some. -/
theorem dropNone_map_some (l : List (Nat × ℚ)) :
    dropNone (l.map (fun p => (p.1, Option.some p.2))) = l := by
  induction l with
  | nil => rfl
  | cons a t ih => simp only [List.map_cons, dropNone, List.filterMap_cons] at ih ⊢; simp [ih]

/-- No tier value is missing after wrapping every tier value in some. -/
theorem any_isNone_map_some (l : List (Nat × ℚ)) :
    (l.map (fun p => (p.1, Option.some p.2))).any (fun p => p.2.isNone) = false := by
  induction l with
  | nil => rfl
  | cons a t ih => simp [ih]

/-- The long tier scan on fully parsed tiers is a find over the ascending
stable sort. -/
theorem scanTpLong_map_some (cur : ℚ) (l : List (Nat × ℚ)) :
    scanTpLong cur (l.map (fun p => (p.1, Option.some p.2))) =
      .ok ((List.insertionSort tpLe l).find? (fun p => decide (cur ≥ p.2))) := by
  rw [scanTpLong, any_isNone_map_some, dropNone_map_some]
  simp

/-- In a list sorted ascending by price, if m is present, satisfies the
price bound, and has strictly the smallest price among all entries, then
the first entry satisfying the bound is m itself. -/
theorem find_first_of_sorted_min {l : List (Nat × ℚ)} {m : Nat × ℚ} {cur : ℚ}
    (hs : List.Sorted tpLe l) (hm : m ∈ l) (hcur : m.2 ≤ cur)
    (hmin : ∀ x ∈ l, x ≠ m → m.2 < x.2) :
    l.find? (fun p => decide (cur ≥ p.2)) = Option.some m := by
  cases l with
  | nil => simp at hm
  | cons a t =>
    have ha : a = m := by
      by_contra hne
      have h1 : m.2 < a.2 := hmin a (List.mem_cons_self a t) hne
      have hmt : m ∈ t := by
        rcases List.mem_cons.mp hm with h | h
        · exact absurd h.symm hne
        · exact h
      have h2 : a.2 ≤ m.2 := (List.sorted_cons.mp hs).1 m hmt
      exact absurd h2 (not_le.mpr h1)
    subst ha
    exact List.find?_cons_of_pos _ (decide_eq_true hcur)

/-- The terminal guard of check_signal_performance lets a PENDING signal
through to the active evaluation. -/
theorem check_pending (now : ℤ) (priceOf : String → Option ℚ) (sig : Signal)
    (h : sig.status = Option.some PENDING) :
    check_signal_performance now priceOf sig = checkActive now priceOf sig := by
  simp [check_signal_performance, h]

/-- Unfolding of checkActive once the coin and the current price are
resolved and truthy. -/
theorem checkActive_eq (now : ℤ) (priceOf : String → Option ℚ) (sig : Signal)
    (c : String) (cur : ℚ) (hc : sig.coin = Option.some c) (hc0 : c ≠ "")
    (hp : priceOf c = Option.some cur) (hcur : cur ≠ 0) :
    checkActive now priceOf sig = (do
      let entry? ← parse_price sig.limit_order
      let target? ← parse_price sig.take_profit
      let sl? ← parse_price sig.stop_loss
      let tps ← buildTpTargets sig.take_profit_targets
      let sig1 ← priceBlock now cur entry? target? sl? (sig.position.getD "Long") tps sig
      let sig2 ← expiryStep now cur entry? (sig.position.getD "Long") sig1
      pure (unrealizedStep cur entry? (sig.position.getD "Long") sig2)) := by
  rw [checkActive, hc]
  simp [hc0, hp, hcur]

/-- Without a long position the price block follows the Short semantics. -/
theorem priceBlock_nonlong {pos : String} (h : ¬ pyLower pos = "long")
    (now : ℤ) (cur : ℚ) (e? t? s? : Option ℚ) (tps : List (Nat × Option ℚ))
    (sig : Signal) :
    priceBlock now cur e? t? s? pos tps sig = shortPriceBlock now cur e? t? s? tps sig := by
  rw [priceBlock, shortPriceBlock]
  simp [h]

/-- Without a long position the expiry step follows the Short semantics. -/
theorem expiryStep_nonlong {pos : String} (h : ¬ pyLower pos = "long")
    (now : ℤ) (cur : ℚ) (e? : Option ℚ) (sig : Signal) :
    expiryStep now cur e? pos sig = shortExpiryStep now cur e? sig := by
  rw [expiryStep, shortExpiryStep]
  simp [h]

/-- Without a long position the unrealized step follows the Short semantics. -/
theorem unrealizedStep_nonlong {pos : String} (h : ¬ pyLower pos = "long")
    (cur : ℚ) (e? : Option ℚ) (sig : Signal) :
    unrealizedStep cur e? pos sig = shortUnrealizedStep cur e? sig := by
  rw [unrealizedStep, shortUnrealizedStep]
  simp [h]

/-- Without a long position the whole active evaluation follows the Short
semantics. -/
theorem checkActive_nonlong (now : ℤ) (priceOf : String → Option ℚ) (sig : Signal)
    (h : ¬ pyLower (sig.position.getD "Long") = "long") :
    checkActive now priceOf sig = shortSemanticsActive now priceOf sig := by
  rw [checkActive, shortSemanticsActive]
  simp only [priceBlock_nonlong h, expiryStep_nonlong h, unrealizedStep_nonlong h]

/-- C2: for every signal whose status field is present and not PENDING,
check_signal_performance returns the signal with no field changed, for any
current time, price oracle and other field values; re-evaluating a
terminal signal is a no-op and status never leaves a terminal value. -/
theorem C2_terminal_is_noop (now : ℤ) (priceOf : String → Option ℚ) (sig : Signal)
    (st : String) (hst : sig.status = Option.some st) (hne : st ≠ PENDING) :
    check_signal_performance now priceOf sig = .ok sig := by
  simp [check_signal_performance, hst, hne]

/-- C2 witness: a concrete terminal signal is returned unchanged. -/
theorem C2_terminal_is_noop_witness :
    check_signal_performance 0 (fun _ => Option.some 50000)
      { status := Option.some "HIT TARGET", coin := Option.some "BTC" } =
      .ok { status := Option.some "HIT TARGET", coin := Option.some "BTC" } :=
  C2_terminal_is_noop 0 (fun _ => Option.some 50000) _ "HIT TARGET" rfl (by decide)

/-- C9: an unavailable price and a price of exactly 0 are treated alike:
the pending (or status-free) signal is returned completely unchanged, with
no transition and no unrealized_performance update. -/
theorem C9_zero_price_is_noop (now : ℤ) (priceOf : String → Option ℚ)
    (sig : Signal) (c : String)
    (hpend : sig.status = Option.none ∨ sig.status = Option.some PENDING)
    (hc : sig.coin = Option.some c) (hc0 : c ≠ "")
    (hp : priceOf c = Option.none ∨ priceOf c = Option.some 0) :
    check_signal_performance now priceOf sig = .ok sig := by
  have hact : checkActive now priceOf sig = .ok sig := by
    rw [checkActive, hc]
    rcases hp with h | h <;> simp [hc0, h]
  rcases hpend with h | h
  · simp [check_signal_performance, h, hact]
  · rw [check_pending _ _ _ h]
    exact hact

/-- C9 witness: a concrete pending signal with a 0 price is unchanged. -/
theorem C9_zero_price_is_noop_witness :
    check_signal_performance 5 (fun _ => Option.some 0)
      { status := Option.some "PENDING", coin := Option.some "BTC" } =
      .ok { status := Option.some "PENDING", coin := Option.some "BTC" } :=
  C9_zero_price_is_noop 5 (fun _ => Option.some 0) _ "BTC" (Or.inr rfl) rfl
    (by decide) (Or.inr rfl)

/-- C7 counterexample: parse_price does not pass a numeric input through;
a non-zero int/float reaches price_str.replace and raises AttributeError,
so parse_price is not total over the claimed input type. -/
theorem C7_counterexample :
    parse_price (.num 88000) = .error .attributeError := rfl

/-- C7 amended: parse_price is total and never raises over None and string
inputs (None, the empty string and malformed text give None, k/K-suffixed
and plain numeric strings parse, commas and spaces are stripped), numeric
zero is falsy and gives None, but every non-zero numeric input raises
AttributeError instead of passing through. -/
theorem C7_parse_price_amended :
    parse_price .none = .ok Option.none ∧
    parse_price (.str "") = .ok Option.none ∧
    (∀ s : String, ∃ v, parse_price (.str s) = .ok v) ∧
    parse_price (.num 0) = .ok Option.none ∧
    (∀ q : ℚ, q ≠ 0 → parse_price (.num q) = .error .attributeError) ∧
    parse_price (.str "88k") = .ok (Option.some 88000) ∧
    parse_price (.str "100K") = .ok (Option.some 100000) ∧
    parse_price (.str "1,234.5") = .ok (Option.some (2469 / 2)) ∧
    parse_price (.str "abc") = .ok Option.none := by
  refine ⟨rfl, rfl, ?_, rfl, ?_, by with_unfolding_all rfl, by with_unfolding_all rfl,
    by with_unfolding_all rfl, rfl⟩
  · intro s
    cases h : parse_price (.str s) with
    | ok v => exact ⟨v, rfl⟩
    | error e =>
      exfalso
      simp only [parse_price] at h
      split at h
      · simp at h
      · split at h
        · split at h <;> simp at h
        · simp at h
  · intro q hq
    simp [parse_price, hq]

/-- C7 witness: the amended theorem applied at the non-zero numeric input
5, discharging the non-zero hypothesis. -/
theorem C7_parse_price_amended_witness :
    parse_price (.num 5) = .error .attributeError :=
  C7_parse_price_amended.2.2.2.2.1 5 (by norm_num)

/-- find? returns the element at the first index whose entry satisfies the
predicate. -/
theorem find?_eq_of_first_idx {α : Type} (p : α → Bool) :
    ∀ (l : List α) (i : Nat) (c : α), l[i]? = Option.some c → p c = true →
      (∀ j, j < i → ∀ d, l[j]? = Option.some d → p d = false) →
      l.find? p = Option.some c := by
  intro l
  induction l with
  | nil => intro i c h; simp at h
  | cons a t ih =>
    intro i c hget hp hbef
    cases i with
    | zero =>
      simp only [List.getElem?_cons_zero, Option.some.injEq] at hget
      subst hget
      exact List.find?_cons_of_pos _ hp
    | succ n =>
      have ha : p a = false := hbef 0 (Nat.succ_pos n) a (by simp)
      rw [List.find?_cons_of_neg _ (by simp [ha])]
      exact ih n c (by simpa using hget) hp
        (fun j hj d hd => hbef (j + 1) (by omega) d (by simpa using hd))

/-- C6 counterexample: with no dollar ticker, a text that mentions ETH
before BTC still extracts BTC, because the whitelist is scanned in its own
fixed order, not in text order. -/
theorem C6_counterexample :
    extract_coin "I like ETH more than BTC" = Option.some "BTC" := by decide

/-- C6 amended: with no dollar ticker, the extractor uppercases the text
and returns the first coin in the fixed whitelist order (BTC, ETH, ...)
that occurs in the text as a whole word, regardless of where the coins
occur in the text. -/
theorem C6_whitelist_order_amended (text : String) (c : String) (i : Nat)
    (hnod : findDollarTicker text.data = Option.none)
    (hi : common_coins[i]? = Option.some c)
    (hocc : containsWord (text.data.map Char.toUpper) c.data = true)
    (hbefore : ∀ j, j < i → ∀ d, common_coins[j]? = Option.some d →
      containsWord (text.data.map Char.toUpper) d.data = false) :
    extract_coin text = Option.some c := by
  rw [extract_coin, hnod]
  exact find?_eq_of_first_idx _ common_coins i c hi hocc hbefore

/-- C6 witness: the amended theorem applied to a text containing ETH and
ADA but not BTC: ETH is at whitelist index 1 and BTC does not occur, so
the extraction returns ETH. -/
theorem C6_whitelist_order_amended_witness :
    extract_coin "my ETH and ADA" = Option.some "ETH" :=
  C6_whitelist_order_amended "my ETH and ADA" "ETH" 1 (by decide) (by decide)
    (by decide)
    (by
      intro j hj d hd
      have hj0 : j = 0 := by omega
      subst hj0
      simp only [common_coins, List.getElem?_cons_zero, Option.some.injEq] at hd
      subst hd
      decide)

/-- The fields touched by unrealizedStep: status and the realized exit
fields are untouched. -/
theorem unrealizedStep_preserves (cur : ℚ) (e? : Option ℚ) (pos : String)
    (sig : Signal) :
    (unrealizedStep cur e? pos sig).status = sig.status ∧
    (unrealizedStep cur e? pos sig).performance = sig.performance ∧
    (unrealizedStep cur e? pos sig).exit_price = sig.exit_price ∧
    (unrealizedStep cur e? pos sig).exit_date = sig.exit_date := by
  unfold unrealizedStep
  split <;> simp

/-- Possible outcomes of the price block: either the signal is unchanged,
or it transitions to HIT TARGET or HIT STOPLOSS with performance,
exit_price and exit_date all set. -/
theorem priceBlock_cases {now : ℤ} {cur : ℚ} {e? t? s? : Option ℚ} {pos : String}
    {tps : List (Nat × Option ℚ)} {sig s1 : Signal}
    (h : priceBlock now cur e? t? s? pos tps sig = .ok s1) :
    s1 = sig ∨
      ((s1.status = Option.some HIT_TARGET ∨ s1.status = Option.some HIT_STOPLOSS) ∧
        s1.performance.isSome ∧ s1.exit_price.isSome ∧ s1.exit_date.isSome) := by
  unfold priceBlock at h
  split at h
  · simp only [] at h
    split at h
    · cases hs : scanTpLong cur tps with
      | error e => rw [hs, exbind_err] at h; exact Except.noConfusion h
      | ok hit =>
        rw [hs, exbind_ok] at h
        cases hit with
        | some nt => cases h; right; simp
        | none =>
          simp only [] at h
          repeat' split at h
          all_goals cases h
          all_goals simp_all [isSome_of_qtruthy]
    · cases hs : scanTpShort cur tps with
      | error e => rw [hs, exbind_err] at h; exact Except.noConfusion h
      | ok hit =>
        rw [hs, exbind_ok] at h
        cases hit with
        | some nt => cases h; right; simp
        | none =>
          simp only [] at h
          repeat' split at h
          all_goals cases h
          all_goals simp_all [isSome_of_qtruthy]
  · cases h; left; rfl

/-- Possible outcomes of the expiry step: unchanged, or EXPIRED off a
PENDING input with the exit fields set exactly when the entry is truthy. -/
theorem expiryStep_cases {now : ℤ} {cur : ℚ} {e? : Option ℚ} {pos : String}
    {sig s2 : Signal}
    (h : expiryStep now cur e? pos sig = .ok s2) :
    s2 = sig ∨
      (sig.status = Option.some PENDING ∧ s2.status = Option.some EXPIRED ∧
        ((qtruthy e? = true ∧ s2.performance.isSome ∧ s2.exit_price.isSome ∧
            s2.exit_date.isSome) ∨
          (qtruthy e? = false ∧ s2.performance = sig.performance ∧
            s2.exit_price = sig.exit_price ∧ s2.exit_date = sig.exit_date))) := by
  unfold expiryStep at h
  cases hts : strptimeTs sig.timestamp with
  | error e => rw [hts, exbind_err] at h; exact Except.noConfusion h
  | ok dt =>
    rw [hts, exbind_ok] at h
    dsimp only at h
    split at h
    case isTrue hc =>
      right
      refine ⟨hc.2, ?_⟩
      split at h
      case isTrue hq => cases h; exact ⟨by simp, Or.inl ⟨hq, by simp, by simp, by simp⟩⟩
      case isFalse hq =>
        cases h
        exact ⟨by simp, Or.inr ⟨by simpa using hq, by simp, by simp, by simp⟩⟩
    case isFalse hc => cases h; left; rfl

/-- Shape of a successful active evaluation of a PENDING signal: a
transition to HIT TARGET or HIT STOPLOSS carries performance, exit_price
and exit_date; a transition to EXPIRED carries them when the parsed entry
price is truthy; and the status field is present afterwards. -/
theorem checkActive_shape (now : ℤ) (priceOf : String → Option ℚ)
    (sig sOut : Signal) (hpend : sig.status = Option.some PENDING)
    (hok : checkActive now priceOf sig = .ok sOut) :
    ((sOut.status = Option.some HIT_TARGET ∨ sOut.status = Option.some HIT_STOPLOSS) →
      sOut.performance.isSome ∧ sOut.exit_price.isSome ∧ sOut.exit_date.isSome) ∧
    (sOut.status = Option.some EXPIRED →
      ∀ e, parse_price sig.limit_order = .ok e → qtruthy e = true →
        sOut.performance.isSome ∧ sOut.exit_price.isSome ∧ sOut.exit_date.isSome) ∧
    sOut.status.isSome := by
  have hne1 : PENDING ≠ HIT_TARGET := by decide
  have hne2 : PENDING ≠ HIT_STOPLOSS := by decide
  have hne3 : PENDING ≠ EXPIRED := by decide
  have hne4 : HIT_TARGET ≠ EXPIRED := by decide
  have hne5 : HIT_STOPLOSS ≠ EXPIRED := by decide
  have hne6 : HIT_TARGET ≠ PENDING := by decide
  have hne7 : HIT_STOPLOSS ≠ PENDING := by decide
  have base : ∀ sEq : sOut = sig,
      ((sOut.status = Option.some HIT_TARGET ∨ sOut.status = Option.some HIT_STOPLOSS) →
        sOut.performance.isSome ∧ sOut.exit_price.isSome ∧ sOut.exit_date.isSome) ∧
      (sOut.status = Option.some EXPIRED →
        ∀ e, parse_price sig.limit_order = .ok e → qtruthy e = true →
          sOut.performance.isSome ∧ sOut.exit_price.isSome ∧ sOut.exit_date.isSome) ∧
      sOut.status.isSome := by
    intro sEq
    subst sEq
    rw [hpend]
    refine ⟨?_, ?_, rfl⟩
    · intro hterm
      rcases hterm with hterm | hterm <;>
        exact absurd (Option.some.inj hterm) (by assumption)
    · intro hexp
      exact absurd (Option.some.inj hexp) hne3
  cases hco : sig.coin with
  | none =>
    have hval : checkActive now priceOf sig = .ok sig := by rw [checkActive, hco]
    rw [hval] at hok
    exact base (Except.ok.inj hok).symm
  | some c =>
    by_cases hc0 : c = ""
    · have hval : checkActive now priceOf sig = .ok sig := by
        rw [checkActive, hco]
        simp [hc0]
      rw [hval] at hok
      exact base (Except.ok.inj hok).symm
    · cases hpc : priceOf c with
      | none =>
        have hval : checkActive now priceOf sig = .ok sig := by
          rw [checkActive, hco]
          simp [hc0, hpc]
        rw [hval] at hok
        exact base (Except.ok.inj hok).symm
      | some cur =>
        by_cases hcz : cur = 0
        · have hval : checkActive now priceOf sig = .ok sig := by
            rw [checkActive, hco]
            simp [hc0, hpc, hcz]
          rw [hval] at hok
          exact base (Except.ok.inj hok).symm
        · rw [checkActive_eq now priceOf sig c cur hco hc0 hpc hcz] at hok
          cases hlo : parse_price sig.limit_order with
          | error e => rw [hlo, exbind_err] at hok; exact Except.noConfusion hok
          | ok e? =>
          rw [hlo, exbind_ok] at hok
          cases htg : parse_price sig.take_profit with
          | error e => rw [htg, exbind_err] at hok; exact Except.noConfusion hok
          | ok t? =>
          rw [htg, exbind_ok] at hok
          cases hslp : parse_price sig.stop_loss with
          | error e => rw [hslp, exbind_err] at hok; exact Except.noConfusion hok
          | ok s? =>
          rw [hslp, exbind_ok] at hok
          cases htt : buildTpTargets sig.take_profit_targets with
          | error e => rw [htt, exbind_err] at hok; exact Except.noConfusion hok
          | ok tps =>
          rw [htt, exbind_ok] at hok
          cases hpb : priceBlock now cur e? t? s? (sig.position.getD "Long") tps sig with
          | error e => rw [hpb, exbind_err] at hok; exact Except.noConfusion hok
          | ok s1 =>
          rw [hpb, exbind_ok] at hok
          cases hes : expiryStep now cur e? (sig.position.getD "Long") s1 with
          | error e => rw [hes, exbind_err] at hok; exact Except.noConfusion hok
          | ok s2 =>
          rw [hes, exbind_ok] at hok
          have hsOut : sOut = unrealizedStep cur e? (sig.position.getD "Long") s2 :=
            (Except.ok.inj hok).symm
          obtain ⟨hu_st, hu_pf, hu_xp, hu_xd⟩ :=
            unrealizedStep_preserves cur e? (sig.position.getD "Long") s2
          rw [hsOut, hu_st, hu_pf, hu_xp, hu_xd]
          rcases priceBlock_cases hpb with h1 | ⟨h1st, h1pf, h1xp, h1xd⟩
          · subst h1
            rcases expiryStep_cases hes with h2 | ⟨h2pend, h2st, h2rest⟩
            · subst h2
              rw [hpend]
              refine ⟨?_, ?_, rfl⟩
              · intro hterm
                rcases hterm with hterm | hterm <;>
                  exact absurd (Option.some.inj hterm) (by assumption)
              · intro hexp
                exact absurd (Option.some.inj hexp) hne3
            · rw [h2st]
              refine ⟨?_, ?_, rfl⟩
              · intro hterm
                rcases hterm with hterm | hterm <;>
                  exact absurd (Option.some.inj hterm).symm (by assumption)
              · intro _ e hpe hqt
                have he : e? = e := Except.ok.inj hpe
                subst he
                rcases h2rest with ⟨_, f1, f2, f3⟩ | ⟨hqf, _, _, _⟩
                · exact ⟨f1, f2, f3⟩
                · rw [hqt] at hqf
                  exact absurd hqf (by simp)
          · rcases expiryStep_cases hes with h2 | ⟨h2pend, h2st, h2rest⟩
            · subst h2
              refine ⟨?_, ?_, ?_⟩
              · intro _
                exact ⟨h1pf, h1xp, h1xd⟩
              · intro hexp
                rcases h1st with h1st | h1st <;> rw [h1st] at hexp <;>
                  exact absurd (Option.some.inj hexp) (by assumption)
              · rcases h1st with h1st | h1st <;> rw [h1st] <;> rfl
            · exfalso
              rcases h1st with h1st | h1st <;> rw [h1st] at h2pend <;>
                exact absurd (Option.some.inj h2pend) (by assumption)

/-- A pending signal with no parseable entry price and an old timestamp. -/
def expiredNoEntrySignal : Signal := {
  status := Option.some "PENDING", coin := Option.some "BTC",
  timeframe := Option.some "MID", timestamp := Option.some "2020-01-01 00:00:00" }

/-- C4 counterexample: a single invocation on a PENDING signal whose entry
price does not parse moves status to EXPIRED while performance, exit_price
and exit_date all remain unset, so the three fields are not always
assigned together with a terminal transition. -/
theorem C4_counterexample :
    check_signal_performance 1767225700 (fun _ => Option.some 50000) expiredNoEntrySignal =
      .ok { expiredNoEntrySignal with status := Option.some EXPIRED } ∧
    ({ expiredNoEntrySignal with status := Option.some EXPIRED } : Signal).performance =
      Option.none ∧
    ({ expiredNoEntrySignal with status := Option.some EXPIRED } : Signal).exit_price =
      Option.none ∧
    ({ expiredNoEntrySignal with status := Option.some EXPIRED } : Signal).exit_date =
      Option.none ∧
    EXPIRED ≠ PENDING :=
  ⟨by with_unfolding_all rfl, rfl, rfl, rfl, by decide⟩

/-- C4 amended: in one invocation on a PENDING signal, a transition to
HIT TARGET or HIT STOPLOSS always assigns performance, exit_price and
exit_date together with the status; a transition to EXPIRED assigns them
only under the extra condition that the parsed entry price is truthy (a
signal without one can reach EXPIRED with all three unset). -/
theorem C4_exit_fields_amended (now : ℤ) (priceOf : String → Option ℚ)
    (sig sOut : Signal)
    (hpend : sig.status = Option.some PENDING)
    (hok : check_signal_performance now priceOf sig = .ok sOut) :
    ((sOut.status = Option.some HIT_TARGET ∨ sOut.status = Option.some HIT_STOPLOSS) →
      sOut.performance.isSome ∧ sOut.exit_price.isSome ∧ sOut.exit_date.isSome) ∧
    (sOut.status = Option.some EXPIRED →
      ∀ e, parse_price sig.limit_order = .ok e → qtruthy e = true →
        sOut.performance.isSome ∧ sOut.exit_price.isSome ∧ sOut.exit_date.isSome) := by
  rw [check_pending _ _ _ hpend] at hok
  obtain ⟨h1, h2, _⟩ := checkActive_shape now priceOf sig sOut hpend hok
  exact ⟨h1, h2⟩

/-- A concrete pending Short signal that hits its implicit stop. -/
def sigShortStop : Signal := {
  status := Option.some "PENDING", coin := Option.some "BTC",
  limit_order := .str "90000", position := Option.some "Short",
  timeframe := Option.some "MID", timestamp := Option.some "2026-01-01 00:00:00" }

/-- The evaluated form of sigShortStop at price 109000. -/
def sigShortStopResult : Signal := { sigShortStop with
  status := Option.some HIT_STOPLOSS,
  performance := Option.some (-20), exit_price := Option.some 108000,
  exit_date := Option.some 1767225700 }

/-- C4 witness: the amended theorem applied to a concrete stop-loss hit. -/
theorem C4_exit_fields_amended_witness :
    ((sigShortStopResult.status = Option.some HIT_TARGET ∨
        sigShortStopResult.status = Option.some HIT_STOPLOSS) →
      sigShortStopResult.performance.isSome ∧ sigShortStopResult.exit_price.isSome ∧
        sigShortStopResult.exit_date.isSome) ∧
    (sigShortStopResult.status = Option.some EXPIRED →
      ∀ e, parse_price sigShortStop.limit_order = .ok e → qtruthy e = true →
        sigShortStopResult.performance.isSome ∧ sigShortStopResult.exit_price.isSome ∧
          sigShortStopResult.exit_date.isSome) :=
  C4_exit_fields_amended 1767225700 (fun _ => Option.some 109000) sigShortStop
    sigShortStopResult rfl (by with_unfolding_all rfl)

/-- check_signal_performance never removes the status field. -/
theorem check_status_isSome (now : ℤ) (priceOf : String → Option ℚ)
    (sig s : Signal) (hsome : sig.status.isSome)
    (h : check_signal_performance now priceOf sig = .ok s) : s.status.isSome := by
  unfold check_signal_performance at h
  split at h
  case isTrue hc => cases h; exact hsome
  case isFalse hc =>
    have hpend : sig.status = Option.some PENDING := by
      cases hst : sig.status with
      | none => rw [hst] at hsome; simp at hsome
      | some st =>
        by_cases hq : st = PENDING
        · rw [hq]
        · exfalso
          apply hc
          rw [hst]
          exact ⟨rfl, by simp [hq]⟩
    exact (checkActive_shape now priceOf sig s hpend h).2.2

/-- The loop body of the batch updater keeps every stored signal with a
present status field. -/
theorem updateStep_status (now : ℤ) (priceOf : String → Option ℚ)
    (acc acc2 : List Signal × Bool) (a : Signal)
    (h : updateStep now priceOf acc a = .ok acc2)
    (hacc : ∀ s ∈ acc.1, s.status.isSome) :
    ∀ s ∈ acc2.1, s.status.isSome := by
  unfold updateStep at h
  simp only [] at h
  set a2 := if a.status.isNone = true then { a with status := Option.some PENDING } else a
    with ha2
  have ha2some : a2.status.isSome := by
    rw [ha2]
    cases hst : a.status <;> simp [hst]
  split at h
  · cases hch : check_signal_performance now priceOf a2 with
    | error e => rw [hch, exbind_err] at h; exact Except.noConfusion h
    | ok us =>
      rw [hch, exbind_ok] at h
      cases h
      intro s hs
      rcases List.mem_append.mp hs with hs | hs
      · exact hacc s hs
      · rw [List.mem_singleton.mp hs]
        exact check_status_isSome now priceOf a2 us ha2some hch
  · cases h
    intro s hs
    rcases List.mem_append.mp hs with hs | hs
    · exact hacc s hs
    · rw [List.mem_singleton.mp hs]
      exact ha2some

/-- Folding the batch updater over any list keeps every stored signal with
a present status field. -/
theorem foldl_status (now : ℤ) (priceOf : String → Option ℚ) :
    ∀ (sigs : List Signal) (acc res : List Signal × Bool),
      (∀ s ∈ acc.1, s.status.isSome) →
      List.foldlM (updateStep now priceOf) acc sigs = .ok res →
      ∀ s ∈ res.1, s.status.isSome := by
  intro sigs
  induction sigs with
  | nil =>
    intro acc res hacc h
    rw [List.foldlM_nil] at h
    cases h
    exact hacc
  | cons a t ih =>
    intro acc res hacc h
    rw [List.foldlM_cons] at h
    cases hstep : updateStep now priceOf acc a with
    | error e => rw [hstep, exbind_err] at h; exact Except.noConfusion h
    | ok acc2 =>
      rw [hstep, exbind_ok] at h
      exact ih acc2 res (updateStep_status now priceOf acc acc2 a hstep hacc) h

/-- C10: a successful batch run leaves every signal in the store with a
status field, and the loop body evaluates a record that lacked a status
exactly as a PENDING signal in that same run (the status is initialized
before the pending check). -/
theorem C10_status_initialized (now : ℤ) (priceOf : String → Option ℚ)
    (sigs : List Signal) (res : List Signal × Bool)
    (hok : update_all_signals_performance now priceOf sigs = .ok res) :
    (∀ s ∈ res.1, s.status.isSome) ∧
    (∀ (acc : List Signal × Bool) (sig : Signal), sig.status = Option.none →
      updateStep now priceOf acc sig =
        (check_signal_performance now priceOf
            { sig with status := Option.some PENDING }).map
          (fun us => (acc.1 ++ [us], acc.2 || decide (us.status ≠ Option.some PENDING)))) := by
  constructor
  · exact foldl_status now priceOf sigs ([], false) res (by intro s hs; simp at hs) hok
  · intro acc sig hnone
    unfold updateStep
    simp only [hnone, Option.isNone_none, if_true]
    cases hch : check_signal_performance now priceOf
        { sig with status := Option.some PENDING } with
    | error e => simp [hch, Except.map]
    | ok us => simp [hch, Except.map]

/-- pure in the Except monad is ok. -/
theorem expure_eq {α : Type} (a : α) : (pure a : Except PyErr α) = Except.ok a := rfl

/-- A record with no status key and a coin. -/
def noStatusSignal : Signal := { coin := Option.some "BTC" }

/-- C10 witness: a batch over one status-free record (price unavailable)
leaves it stored with status PENDING, and the loop-body equation applied
at that record. -/
theorem C10_status_initialized_witness :
    (∀ s ∈ ([{ noStatusSignal with status := Option.some PENDING }] : List Signal),
      s.status.isSome) ∧
    (∀ (acc : List Signal × Bool) (sig : Signal), sig.status = Option.none →
      updateStep 0 (fun _ => Option.none) acc sig =
        (check_signal_performance 0 (fun _ => Option.none)
            { sig with status := Option.some PENDING }).map
          (fun us => (acc.1 ++ [us], acc.2 || decide (us.status ≠ Option.some PENDING)))) :=
  C10_status_initialized 0 (fun _ => Option.none) [noStatusSignal]
    ([{ noStatusSignal with status := Option.some PENDING }], false)
    (by with_unfolding_all rfl)

/-- C8: every PENDING signal whose position string, lowercased, is not
"long" (Short, but also Buy or any other value; an absent key defaults to
Long) is evaluated with Short semantics throughout: implicit stop
entry * (1 + 0.2), take-profit hit when current_price <= tier or scalar
target, stop hit when current_price >= stop, and performance
(entry - X) / entry * 100 (also for expiry and unrealized performance). -/
theorem C8_nonlong_is_short_semantics (now : ℤ) (priceOf : String → Option ℚ)
    (sig : Signal) (hpend : sig.status = Option.some PENDING)
    (hpos : ¬ pyLower (sig.position.getD "Long") = "long") :
    check_signal_performance now priceOf sig = shortSemanticsActive now priceOf sig := by
  rw [check_pending _ _ _ hpend, checkActive_nonlong _ _ _ hpos]

/-- C8 witness: the theorem applied to a concrete pending Short signal. -/
theorem C8_nonlong_is_short_semantics_witness :
    check_signal_performance 1767225700 (fun _ => Option.some 109000) sigShortStop =
      shortSemanticsActive 1767225700 (fun _ => Option.some 109000) sigShortStop :=
  C8_nonlong_is_short_semantics 1767225700 (fun _ => Option.some 109000) sigShortStop rfl
    (by decide)

/-- A pending signal whose timestamp string does not parse. -/
def badTsSignal : Signal := {
  status := Option.some "PENDING", coin := Option.some "BTC",
  timestamp := Option.some "not-a-date" }

/-- C3 counterexample: the batch updater does not complete normally over a
signal with an unparseable timestamp; the ValueError from the expiry check
escapes update_all_signals_performance. -/
theorem C3_counterexample :
    update_all_signals_performance 0 (fun _ => Option.some 50000) [badTsSignal] =
      .error .valueError := by with_unfolding_all rfl

/-- C3 amended: when a pending signal's timestamp fails to parse, the
strptime call at line 120 raises ValueError with no surrounding
try/except; the exception propagates out of check_signal_performance and
out of update_all_signals_performance, aborting the batch rather than
skipping only that signal's expiry check. -/
theorem C3_timestamp_error_escapes (now : ℤ) (priceOf : String → Option ℚ)
    (sig : Signal) (c : String) (cur : ℚ) (ts : String)
    (hpend : sig.status = Option.some PENDING)
    (hc : sig.coin = Option.some c) (hc0 : c ≠ "")
    (hp : priceOf c = Option.some cur) (hcur : cur ≠ 0)
    (hlo : sig.limit_order = .none) (htp : sig.take_profit = .none)
    (hsl : sig.stop_loss = .none) (htt : sig.take_profit_targets = [])
    (hts : sig.timestamp = Option.some ts)
    (hbad : strptimeChars ts.data = Option.none) :
    check_signal_performance now priceOf sig = .error .valueError ∧
    update_all_signals_performance now priceOf [sig] = .error .valueError := by
  have hchk : check_signal_performance now priceOf sig = .error .valueError := by
    rw [check_pending _ _ _ hpend, checkActive_eq now priceOf sig c cur hc hc0 hp hcur,
      hlo, htp, hsl, htt]
    simp only [show parse_price PriceVal.none = Except.ok Option.none from rfl,
      show buildTpTargets ([] : List (Nat × PriceVal)) = Except.ok [] from rfl, exbind_ok]
    rw [show priceBlock now cur Option.none Option.none Option.none
        (sig.position.getD "Long") [] sig = pure sig by unfold priceBlock; rfl]
    simp only [expure_eq, exbind_ok]
    unfold expiryStep
    rw [hts]
    simp only [strptimeTs, hbad, exbind_err]
  refine ⟨hchk, ?_⟩
  unfold update_all_signals_performance
  rw [List.foldlM_cons]
  unfold updateStep
  simp only [hpend, Option.isNone_some, Bool.false_eq_true, if_false, hchk, exbind_err]
  simp [hpend, hchk]

/-- C3 witness: the amended theorem applied at the concrete bad-timestamp
signal. -/
theorem C3_timestamp_error_escapes_witness :
    check_signal_performance 0 (fun _ => Option.some 50000) badTsSignal =
      .error .valueError ∧
    update_all_signals_performance 0 (fun _ => Option.some 50000) [badTsSignal] =
      .error .valueError :=
  C3_timestamp_error_escapes 0 (fun _ => Option.some 50000) badTsSignal "BTC" 50000
    "not-a-date" rfl rfl (by decide) rfl (by norm_num) rfl rfl rfl rfl rfl
    (by with_unfolding_all rfl)

/-- After the price block has moved the signal to a terminal status, the
expiry and unrealized steps leave it untouched (given a parseable
timestamp). -/
theorem postSteps_terminal (now : ℤ) (cur : ℚ) (e? : Option ℚ) (pos : String)
    (sig : Signal) (dt : ℤ) (st : String)
    (hts : strptimeTs sig.timestamp = .ok dt)
    (hst : sig.status = Option.some st) (hne : st ≠ PENDING) :
    (expiryStep now cur e? pos sig >>= fun sig2 =>
      pure (unrealizedStep cur e? pos sig2)) = .ok sig := by
  unfold expiryStep
  rw [hts, exbind_ok]
  simp only []
  rw [if_neg (fun hcon => hne (Option.some.inj (hst.symm.trans hcon.2)))]
  simp only [expure_eq, exbind_ok]
  rw [show unrealizedStep cur e? pos sig = sig by
    unfold unrealizedStep
    rw [if_neg (fun hcon => hne (Option.some.inj (hst.symm.trans hcon.1)))]]

/-- C5: a PENDING Short signal with a truthy parsed entry, no truthy
explicit stop, and no take-profit condition met uses the implicit stop
entry * (1 + 0.2); when the current price reaches it the signal moves to
HIT STOPLOSS with performance (entry - stop) / entry * 100 and exit_price
equal to the stop level. -/
theorem C5_short_implicit_stop (now : ℤ) (priceOf : String → Option ℚ)
    (sig : Signal) (c : String) (cur entry : ℚ) (tgt? sl? : Option ℚ) (dt : ℤ)
    (hpend : sig.status = Option.some PENDING)
    (hc : sig.coin = Option.some c) (hc0 : c ≠ "")
    (hp : priceOf c = Option.some cur) (hcur : cur ≠ 0)
    (hent : parse_price sig.limit_order = .ok (Option.some entry)) (he0 : entry ≠ 0)
    (htgt : parse_price sig.take_profit = .ok tgt?) (htgt0 : qtruthy tgt? = false)
    (hsl : parse_price sig.stop_loss = .ok sl?) (hsl0 : qtruthy sl? = false)
    (htt : sig.take_profit_targets = [])
    (hpos : ¬ pyLower (sig.position.getD "Long") = "long")
    (hhit : cur ≥ entry * (1 + 2 / 10))
    (hts : strptimeTs sig.timestamp = .ok dt) :
    check_signal_performance now priceOf sig = .ok { sig with
      status := Option.some HIT_STOPLOSS,
      performance := Option.some ((entry - entry * (1 + 2 / 10)) / entry * 100),
      exit_price := Option.some (entry * (1 + 2 / 10)),
      exit_date := Option.some now } := by
  rw [check_pending _ _ _ hpend, checkActive_eq now priceOf sig c cur hc hc0 hp hcur,
    hent, exbind_ok, htgt, exbind_ok, hsl, exbind_ok]
  rw [show buildTpTargets sig.take_profit_targets = Except.ok [] from by
      rw [htt]
      rfl,
    exbind_ok]
  have hstop : (if qtruthy sl? = true then sl?.getD 0
      else
        if pyLower (sig.position.getD "Long") = "long" then
          (Option.some entry).getD 0 * (1 - 2 / 10)
        else (Option.some entry).getD 0 * (1 + 2 / 10)) =
      entry * (1 + 2 / 10) := by simp [hsl0, hpos]
  have hpb : priceBlock now cur (Option.some entry) tgt? sl? (sig.position.getD "Long")
      [] sig = .ok { sig with
        status := Option.some HIT_STOPLOSS,
        performance := Option.some ((entry - entry * (1 + 2 / 10)) / entry * 100),
        exit_price := Option.some (entry * (1 + 2 / 10)),
        exit_date := Option.some now } := by
    unfold priceBlock
    rw [if_pos (show qtruthy (Option.some entry) = true by simp [qtruthy, he0])]
    simp only []
    rw [if_neg hpos]
    rw [show scanTpShort cur ([] : List (Nat × Option ℚ)) = Except.ok Option.none from rfl,
      exbind_ok]
    simp only []
    rw [if_neg (fun hcon => by rw [htgt0] at hcon; exact absurd hcon.1 (by simp))]
    rw [hstop, if_pos hhit]
    rfl
  rw [hpb, exbind_ok]
  exact postSteps_terminal now cur (Option.some entry) (sig.position.getD "Long")
    { sig with
      status := Option.some HIT_STOPLOSS,
      performance := Option.some ((entry - entry * (1 + 2 / 10)) / entry * 100),
      exit_price := Option.some (entry * (1 + 2 / 10)),
      exit_date := Option.some now } dt HIT_STOPLOSS hts rfl (by decide)

/-- C5 witness: the theorem applied at entry 90000, Short position, no
explicit stop, current price 109000: the implicit stop is 108000 and the
realized performance is exactly -20. -/
theorem C5_short_implicit_stop_witness :
    check_signal_performance 1767225700 (fun _ => Option.some 109000) sigShortStop =
      .ok { sigShortStop with
        status := Option.some HIT_STOPLOSS,
        performance := Option.some (((90000 : ℚ) - 90000 * (1 + 2 / 10)) / 90000 * 100),
        exit_price := Option.some ((90000 : ℚ) * (1 + 2 / 10)),
        exit_date := Option.some 1767225700 } ∧
    ((90000 : ℚ) - 90000 * (1 + 2 / 10)) / 90000 * 100 = -20 ∧
    (90000 : ℚ) * (1 + 2 / 10) = 108000 :=
  ⟨C5_short_implicit_stop 1767225700 (fun _ => Option.some 109000) sigShortStop "BTC"
      109000 90000 Option.none Option.none 1767225600 rfl rfl (by decide) rfl
      (by norm_num) (by with_unfolding_all rfl) (by norm_num) rfl rfl rfl rfl rfl
      (by decide) (by norm_num) (by with_unfolding_all rfl),
    by norm_num, by norm_num⟩

/-- C1: for a PENDING Long signal with parseable tiers and entry, the
evaluator scans tiers sorted ascending by price and picks the lowest tier
whose price is at most the current price, setting status HIT TARGET,
hit_tp to that tier's number, performance (tier - entry) / entry * 100,
and exit_price to the tier price. -/
theorem C1_long_lowest_tier (now : ℤ) (priceOf : String → Option ℚ)
    (sig : Signal) (c : String) (cur entry : ℚ) (tgt? sl? : Option ℚ)
    (tiers : List (Nat × ℚ)) (m : Nat × ℚ) (dt : ℤ)
    (hpend : sig.status = Option.some PENDING)
    (hc : sig.coin = Option.some c) (hc0 : c ≠ "")
    (hp : priceOf c = Option.some cur) (hcur : cur ≠ 0)
    (hent : parse_price sig.limit_order = .ok (Option.some entry)) (he0 : entry ≠ 0)
    (htgt : parse_price sig.take_profit = .ok tgt?)
    (hsl : parse_price sig.stop_loss = .ok sl?)
    (hpos : pyLower (sig.position.getD "Long") = "long")
    (htp : buildTpTargets sig.take_profit_targets =
      .ok (tiers.map (fun p => (p.1, Option.some p.2))))
    (hm : m ∈ tiers) (hhit : m.2 ≤ cur)
    (hmin : ∀ x ∈ tiers, x ≠ m → m.2 < x.2)
    (hts : strptimeTs sig.timestamp = .ok dt) :
    check_signal_performance now priceOf sig = .ok { sig with
      status := Option.some HIT_TARGET, hit_tp := Option.some m.1,
      performance := Option.some ((m.2 - entry) / entry * 100),
      exit_price := Option.some m.2, exit_date := Option.some now } := by
  rw [check_pending _ _ _ hpend, checkActive_eq now priceOf sig c cur hc hc0 hp hcur,
    hent, exbind_ok, htgt, exbind_ok, hsl, exbind_ok, htp, exbind_ok]
  have hscan : scanTpLong cur (tiers.map (fun p => (p.1, Option.some p.2))) =
      .ok (Option.some m) := by
    rw [scanTpLong_map_some]
    rw [find_first_of_sorted_min (List.sorted_insertionSort tpLe tiers)
      (((List.perm_insertionSort tpLe tiers).mem_iff).mpr hm) hhit
      (fun x hx => hmin x (((List.perm_insertionSort tpLe tiers).mem_iff).mp hx))]
  have hpb : priceBlock now cur (Option.some entry) tgt? sl? (sig.position.getD "Long")
      (tiers.map (fun p => (p.1, Option.some p.2))) sig = .ok { sig with
        status := Option.some HIT_TARGET, hit_tp := Option.some m.1,
        performance := Option.some ((m.2 - entry) / entry * 100),
        exit_price := Option.some m.2, exit_date := Option.some now } := by
    unfold priceBlock
    rw [if_pos (show qtruthy (Option.some entry) = true by simp [qtruthy, he0])]
    simp only []
    rw [if_pos hpos]
    rw [hscan, exbind_ok]
    rfl
  rw [hpb, exbind_ok]
  exact postSteps_terminal now cur (Option.some entry) (sig.position.getD "Long")
    { sig with
      status := Option.some HIT_TARGET, hit_tp := Option.some m.1,
      performance := Option.some ((m.2 - entry) / entry * 100),
      exit_price := Option.some m.2, exit_date := Option.some now } dt
    HIT_TARGET hts rfl (by decide)

/-- A concrete pending Long signal with two take-profit tiers. -/
def sigTierLong : Signal := {
  status := Option.some "PENDING", coin := Option.some "BTC",
  limit_order := .str "80000", position := Option.some "Long",
  take_profit_targets := [(1, .str "90000"), (2, .str "95000")],
  timeframe := Option.some "MID", timestamp := Option.some "2026-01-01 00:00:00" }

/-- C1 witness: tiers {1: 90000, 2: 95000}, entry 80000, current 92000
selects tier 1, with hit_tp = 1 and performance exactly 12.5. -/
theorem C1_long_lowest_tier_witness :
    check_signal_performance 1767225700 (fun _ => Option.some 92000) sigTierLong =
      .ok { sigTierLong with
        status := Option.some HIT_TARGET, hit_tp := Option.some 1,
        performance := Option.some (((90000 : ℚ) - 80000) / 80000 * 100),
        exit_price := Option.some 90000, exit_date := Option.some 1767225700 } ∧
    ((90000 : ℚ) - 80000) / 80000 * 100 = 25 / 2 :=
  ⟨C1_long_lowest_tier 1767225700 (fun _ => Option.some 92000) sigTierLong "BTC" 92000
      80000 Option.none Option.none [(1, 90000), (2, 95000)] (1, 90000) 1767225600
      rfl rfl (by decide) rfl (by norm_num) (by with_unfolding_all rfl) (by norm_num)
      rfl rfl (by decide) (by with_unfolding_all rfl) (by simp) (by norm_num)
      (by
        intro x hx hne
        rcases List.mem_cons.mp hx with hx | hx
        · exact absurd hx hne
        · rcases List.mem_cons.mp hx with hx | hx
          · rw [hx]
            norm_num
          · simp at hx)
      (by with_unfolding_all rfl),
    by norm_num⟩

end PumpBot
